import Mathlib

/-!
Shallow embedding of `src/components/enhanced-interactive-piano-roll.tsx`.

The component is a single-threaded, event-driven editor.  We model its React
state as a record `PianoRollState`, and every event handler as a pure function
`PianoRollState → PianoRollState` (paired with the list of audio-engine calls
it issues, for the handlers that talk to the synth or the transport).

Modelling conventions:
* JS numbers that only ever hold integers (grid indices, `start`, `duration`,
  column counts) are `Int`; times in seconds are `ℚ` (the only constants used
  are multiples of 0.25, which are exact); pointer pixel coordinates are
  modelled at integer pixel precision as `Int`, and `Math.floor(x / CELL_SIZE)`
  is the floor division `x.fdiv CELL_SIZE`, which agrees with JS `Math.floor`
  of the real quotient on integer inputs, negative ones included.
* JS array indexing out of range yields `undefined`; we model a possibly
  undefined pitch string as `Option String` (`none` = `undefined`).
* `Math.max(...list)` on an empty argument list yields `-Infinity`; we model
  the result as `Option Int` with `none` standing for `-Infinity`.
* `Date.now()` is an input: each click event carries its timestamp `ts`, and
  the generated id is the string `"note-" ++ toString ts`, as in the source.
* React batches the `setX` functional updates of one handler; applying them
  sequentially to the state record reproduces the committed state.
-/

namespace PianoRoll

/-- Source constant `NOTES`: the twelve chromatic note names from C to B
(written here as two concatenated halves; the source has one array
literal). -/
def NOTES : List String :=
  ["C", "C#", "D", "D#", "E", "F"] ++ ["F#", "G", "G#", "A", "A#", "B"]

/-- Source constant `OCTAVES = 5`. -/
def OCTAVES : Nat := 5

/-- Source constant `MEASURES = 4`. -/
def MEASURES : Int := 4

/-- Source constant `BEATS_PER_MEASURE = 4`. -/
def BEATS_PER_MEASURE : Int := 4

/-- Source constant `CELL_SIZE = 25`. -/
def CELL_SIZE : Int := 25

/-- The pitch lattice `allNotes`: for each `octave` in `0..OCTAVES-1`, the twelve names suffixed
with `OCTAVES - octave`, flattened, then reversed (highest row first becomes
lowest pitch first after `.reverse()`). -/
def allNotes : List String :=
  (((List.range OCTAVES).map
      (fun octave => NOTES.map (fun note => note ++ toString (OCTAVES - octave)))).flatten).reverse

/-- JS array indexing `arr[i]`: `undefined` (= `none`) outside `[0, length)`. -/
def jsIndex (l : List String) (i : Int) : Option String :=
  if i < 0 then none else l.get? i.toNat

/-- Model of `Math.max(...xs)` over a list of integers; `none` models the `-Infinity`
returned for an empty argument list. -/
def jsMaxInt : List Int → Option Int
  | [] => none
  | x :: xs =>
      match jsMaxInt xs with
      | none => some x
      | some m => some (max x m)

/-- The `Note` interface.  `note` (the pitch name) is `Option String` because
the source can store `allNotes[rowIndex]` with `rowIndex` out of range. -/
structure Note where
  id : String
  note : Option String
  start : Int
  duration : Int
  rowIndex : Int
  colIndex : Int
  selected : Bool
deriving DecidableEq, Repr

/-- One call against the external audio engine (synth or `Tone.Transport`).
`transportSchedule none` records a `Tone.Transport.schedule` whose time
argument is `-Infinity` (empty `Math.max`). -/
inductive EngineCall where
  | triggerAttack (pitch : Option String)
  | triggerRelease (pitch : Option String)
  | triggerAttackRelease (pitch : Option String) (durationSeconds : ℚ) (whenSeconds : ℚ)
  | transportCancel
  | transportStop
  | transportStart
  | transportSetPosition (pos : ℚ)
  | transportSchedule (atSeconds : Option ℚ)
  | releaseAll
deriving DecidableEq, Repr

/-- The React state of `EnhancedInteractivePianoRoll`.  `hasSynth` is whether
the `synth` state is non-null (set by the mount effect); `activeNotes` may
contain `none` because `playNote` can be handed an undefined pitch. -/
structure PianoRollState where
  hasSynth : Bool
  activeNotes : List (Option String)
  notes : List Note
  isPlaying : Bool
  isDragging : Bool
  selectedNote : Option Note
  numberOfColumns : Int
deriving DecidableEq, Repr

/-- The initial state after mount: `notes = []`, nothing playing or dragging,
no selection, `numberOfColumns = MEASURES * BEATS_PER_MEASURE * 4`. -/
def initialState (hasSynth : Bool) : PianoRollState :=
  { hasSynth := hasSynth
    activeNotes := []
    notes := []
    isPlaying := false
    isDragging := false
    selectedNote := none
    numberOfColumns := MEASURES * BEATS_PER_MEASURE * 4 }

/-- The hit predicate of the `notes.find(...)` calls in `handleCanvasClick`
and `handleMouseDown`: same row, and the column inside
`[colIndex, colIndex + duration)`. -/
def hits (rowIndex colIndex : Int) (note : Note) : Bool :=
  note.rowIndex == rowIndex &&
    decide (colIndex ≥ note.colIndex) && decide (colIndex < note.colIndex + note.duration)

/-- Model of `notes.find(note => ...)`: the first note in store order hit at
`(rowIndex, colIndex)`, if any. -/
def hitTest (notes : List Note) (rowIndex colIndex : Int) : Option Note :=
  notes.find? (hits rowIndex colIndex)

/-- Handler `playNote`: if the synth exists, `triggerAttack` and append to
`activeNotes`.  The pitch is `Option String`: `handleCanvasClick` can pass an
undefined pitch. -/
def playNote (pitch : Option String) (s : PianoRollState) :
    PianoRollState × List EngineCall :=
  if s.hasSynth then
    ({ s with activeNotes := s.activeNotes ++ [pitch] }, [EngineCall.triggerAttack pitch])
  else (s, [])

/-- Handler `stopNote`: if the synth exists, `triggerRelease` and filter the pitch out
of `activeNotes`. -/
def stopNote (pitch : Option String) (s : PianoRollState) :
    PianoRollState × List EngineCall :=
  if s.hasSynth then
    ({ s with activeNotes := s.activeNotes.filter (fun n => n ≠ pitch) },
     [EngineCall.triggerRelease pitch])
  else (s, [])

/-- The id string `` `note-${Date.now()}` `` for timestamp `ts`. -/
def mkId (ts : Nat) : String := "note-" ++ toString ts

/-- The new `Note` literal built in the creation branch of `handleCanvasClick` at
grid cell `(rowIndex, colIndex)` with timestamp `ts`. -/
def mkNewNote (rowIndex colIndex : Int) (ts : Nat) : Note :=
  { id := mkId ts
    note := jsIndex allNotes rowIndex
    start := colIndex
    duration := 1
    rowIndex := rowIndex
    colIndex := colIndex
    selected := true }

/-- Handler `handleCanvasClick`: hit → select that note only; miss and not dragging →
append a new selected note (deselecting the rest), audible preview `attack`,
and grow the grid by 50 columns when at/past the last column. -/
def handleCanvasClick (x y : Int) (ts : Nat) (s : PianoRollState) :
    PianoRollState × List EngineCall :=
  let colIndex : Int := x.fdiv CELL_SIZE
  let rowIndex : Int := y.fdiv CELL_SIZE
  match hitTest s.notes rowIndex colIndex with
  | some clickedNote =>
      ({ s with
          selectedNote := some clickedNote
          notes := s.notes.map (fun note => { note with selected := note.id == clickedNote.id }) },
       [])
  | none =>
      if s.isDragging then (s, [])
      else
        let newNote := mkNewNote rowIndex colIndex ts
        let s1 := { s with
          notes := s.notes.map (fun note => { note with selected := false }) ++ [newNote]
          selectedNote := some newNote }
        let out := playNote newNote.note s1
        let s2 := out.1
        let s3 :=
          if colIndex ≥ s2.numberOfColumns - 1 then
            { s2 with numberOfColumns := s2.numberOfColumns + 50 }
          else s2
        (s3, out.2)

/-- Handler `handleMouseDown`: on a hit, select the note and enter the Dragging state;
on a miss, do nothing. -/
def handleMouseDown (x y : Int) (s : PianoRollState) : PianoRollState :=
  let colIndex : Int := x.fdiv CELL_SIZE
  let rowIndex : Int := y.fdiv CELL_SIZE
  match hitTest s.notes rowIndex colIndex with
  | some clickedNote => { s with selectedNote := some clickedNote, isDragging := true }
  | none => s

/-- Handler `handleMouseMove`: while `isDragging && selectedNote`, rewrite the dragged
note fields `colIndex`, `rowIndex` and pitch (`allNotes[newRowIndex]`) in place.
Note the source does not touch `start`. -/
def handleMouseMove (x y : Int) (s : PianoRollState) : PianoRollState :=
  match s.selectedNote with
  | some sel =>
      if s.isDragging then
        let newColIndex : Int := x.fdiv CELL_SIZE
        let newRowIndex : Int := y.fdiv CELL_SIZE
        { s with
            notes := s.notes.map (fun note =>
              if note.id == sel.id then
                { note with
                    colIndex := newColIndex
                    rowIndex := newRowIndex
                    note := jsIndex allNotes newRowIndex }
              else note) }
      else s
  | none => s

/-- Handler `handleMouseUp` (also wired to `onMouseLeave`): clear the dragging flag. -/
def handleMouseUp (s : PianoRollState) : PianoRollState :=
  { s with isDragging := false }

/-- Handler `playRecorded`: guarded by `synth && !isPlaying`.  Cancels/stops/rewinds
the transport, schedules one `triggerAttackRelease` per note, schedules the
stop-callback at `Math.max(...starts+durations) * 0.25` (`none` = `-Infinity`
when the store is empty), and starts the transport.  `now` is `Tone.now()`. -/
def playRecorded (now : ℚ) (s : PianoRollState) : PianoRollState × List EngineCall :=
  if s.hasSynth ∧ ¬s.isPlaying then
    let maxDuration : Option ℚ :=
      (jsMaxInt (s.notes.map (fun n => n.start + n.duration))).map (fun m => (m : ℚ) * (1/4))
    ({ s with isPlaying := true },
     [EngineCall.transportCancel, EngineCall.transportStop, EngineCall.transportSetPosition 0]
       ++ s.notes.map (fun n =>
            EngineCall.triggerAttackRelease n.note ((n.duration : ℚ) * (1/4))
              (now + (n.start : ℚ) * (1/4)))
       ++ [EngineCall.transportSchedule maxDuration, EngineCall.transportStart])
  else (s, [])

/-- Handler `stopPlayback`: stop and cancel the transport, force `isPlaying = false`,
and `releaseAll` when the synth exists. -/
def stopPlayback (s : PianoRollState) : PianoRollState × List EngineCall :=
  ({ s with isPlaying := false },
   [EngineCall.transportStop, EngineCall.transportCancel]
     ++ if s.hasSynth then [EngineCall.releaseAll] else [])

/-- One user-interface event, as dispatched by the JSX wiring of the component.
`canvasClick` carries the `Date.now()` timestamp used for the new id;
`mouseUp` also stands for mouse-leave, which is wired to the same handler. -/
inductive Event where
  | canvasClick (x y : Int) (ts : Nat)
  | mouseDown (x y : Int)
  | mouseMove (x y : Int)
  | mouseUp
  | playEv (now : ℚ)
  | stopEv
  | pianoDown (pitch : String)
  | pianoUp (pitch : String)

/-- The state transition of one event (engine calls discarded). -/
def applyEvent : Event → PianoRollState → PianoRollState
  | .canvasClick x y ts, s => (handleCanvasClick x y ts s).1
  | .mouseDown x y, s => handleMouseDown x y s
  | .mouseMove x y, s => handleMouseMove x y s
  | .mouseUp, s => handleMouseUp s
  | .playEv now, s => (playRecorded now s).1
  | .stopEv, s => (stopPlayback s).1
  | .pianoDown p, s => (playNote (some p) s).1
  | .pianoUp p, s => (stopNote (some p) s).1

/-- Id-freshness of an event: the click timestamp from `Date.now()` yields an id
not already present in the store.  This models the source id scheme
`` `note-${Date.now()}` `` together with the data-model requirement that ids
are unique (distinct timestamps across distinct clicks suffice). -/
def freshEvent : Event → PianoRollState → Prop
  | .canvasClick _ _ ts, s => mkId ts ∉ s.notes.map Note.id
  | _, _ => True

/-- States reachable from the initial state by events whose generated ids are
fresh. -/
inductive Reachable : PianoRollState → Prop where
  | init (hasSynth : Bool) : Reachable (initialState hasSynth)
  | step {s : PianoRollState} (e : Event) :
      Reachable s → freshEvent e s → Reachable (applyEvent e s)

/-- The store invariant backing the selection claims: ids are pairwise
distinct and at most one note is selected. -/
def Inv (s : PianoRollState) : Prop :=
  (s.notes.map Note.id).Nodup ∧ s.notes.countP (fun n => n.selected) ≤ 1

/-- Whether an engine call is a `triggerAttackRelease` (a note scheduling). -/
def isAttackRelease : EngineCall → Bool
  | .triggerAttackRelease _ _ _ => true
  | _ => false

/-- A sample note used to instantiate theorems on concrete inputs. -/
def sampleNote : Note :=
  { id := "note-0", note := some "B1", start := 3, duration := 2,
    rowIndex := 0, colIndex := 3, selected := true }

/-- A sample mid-drag state: `sampleNote` is selected and being dragged. -/
def sampleDragState : PianoRollState :=
  { hasSynth := true, activeNotes := [], notes := [sampleNote],
    isPlaying := false, isDragging := true,
    selectedNote := some sampleNote, numberOfColumns := 64 }

/-- First of two overlapping notes on row 0 (spans columns 0–2). -/
def overlapA : Note :=
  { id := "a", note := some "B1", start := 0, duration := 3,
    rowIndex := 0, colIndex := 0, selected := false }

/-- Second overlapping note on row 0 (spans columns 1–3). -/
def overlapB : Note :=
  { id := "b", note := some "B1", start := 1, duration := 3,
    rowIndex := 0, colIndex := 1, selected := false }

theorem map_id_of_preserving (l : List Note) (f : Note → Note)
    (hf : ∀ n, (f n).id = n.id) : (l.map f).map Note.id = l.map Note.id := by
  rw [List.map_map]
  exact List.map_congr_left (fun n _ => hf n)

theorem playNote_notes (p : Option String) (s : PianoRollState) :
    (playNote p s).1.notes = s.notes := by
  unfold playNote; split <;> rfl

theorem playNote_numberOfColumns (p : Option String) (s : PianoRollState) :
    (playNote p s).1.numberOfColumns = s.numberOfColumns := by
  unfold playNote; split <;> rfl

theorem countP_selected_of_hit {l : List Note} (c : Note)
    (hnd : (l.map Note.id).Nodup) :
    (l.map (fun note => { note with selected := note.id == c.id })).countP
      (fun n => n.selected) ≤ 1 := by
  rw [List.countP_map]
  have h1 : (l.map Note.id).count c.id ≤ 1 :=
    (List.nodup_iff_count_le_one.mp hnd) c.id
  have h2 : (l.map Note.id).count c.id
      = l.countP ((fun n => n.selected) ∘ fun note => { note with selected := note.id == c.id }) := by
    rw [List.count, List.countP_map]
    rfl
  omega

theorem handleCanvasClick_hit (x y : Int) (ts : Nat) (s : PianoRollState) (c : Note)
    (hht : hitTest s.notes (y.fdiv CELL_SIZE) (x.fdiv CELL_SIZE) = some c) :
    handleCanvasClick x y ts s =
      ({ s with
          selectedNote := some c
          notes := s.notes.map (fun note => { note with selected := note.id == c.id }) },
       []) := by
  simp only [handleCanvasClick, hht]

theorem handleCanvasClick_miss_notes (x y : Int) (ts : Nat) (s : PianoRollState)
    (hht : hitTest s.notes (y.fdiv CELL_SIZE) (x.fdiv CELL_SIZE) = none)
    (hd : s.isDragging = false) :
    (handleCanvasClick x y ts s).1.notes =
      s.notes.map (fun note => { note with selected := false })
        ++ [mkNewNote (y.fdiv CELL_SIZE) (x.fdiv CELL_SIZE) ts] := by
  simp only [handleCanvasClick, hht, hd, Bool.false_eq_true, if_false, playNote]
  split <;> split <;> rfl

theorem handleCanvasClick_miss_selectedNote (x y : Int) (ts : Nat) (s : PianoRollState)
    (hht : hitTest s.notes (y.fdiv CELL_SIZE) (x.fdiv CELL_SIZE) = none)
    (hd : s.isDragging = false) :
    (handleCanvasClick x y ts s).1.selectedNote =
      some (mkNewNote (y.fdiv CELL_SIZE) (x.fdiv CELL_SIZE) ts) := by
  simp only [handleCanvasClick, hht, hd, Bool.false_eq_true, if_false, playNote]
  split <;> split <;> rfl

theorem handleMouseDown_notes (x y : Int) (s : PianoRollState) :
    (handleMouseDown x y s).notes = s.notes := by
  cases hht : hitTest s.notes (y.fdiv CELL_SIZE) (x.fdiv CELL_SIZE) <;>
    simp [handleMouseDown, hht]

theorem handleMouseMove_notes (x y : Int) (s : PianoRollState) (sel : Note)
    (hsel : s.selectedNote = some sel) (hd : s.isDragging = true) :
    (handleMouseMove x y s).notes =
      s.notes.map (fun note =>
        if note.id == sel.id then
          { note with
              colIndex := x.fdiv CELL_SIZE
              rowIndex := y.fdiv CELL_SIZE
              note := jsIndex allNotes (y.fdiv CELL_SIZE) }
        else note) := by
  simp [handleMouseMove, hsel, hd]

theorem playRecorded_notes (now : ℚ) (s : PianoRollState) :
    (playRecorded now s).1.notes = s.notes := by
  unfold playRecorded; split <;> rfl

theorem stopNote_notes (p : Option String) (s : PianoRollState) :
    (stopNote p s).1.notes = s.notes := by
  unfold stopNote; split <;> rfl

theorem inv_applyEvent {s : PianoRollState} (e : Event) (hinv : Inv s)
    (hfresh : freshEvent e s) : Inv (applyEvent e s) := by
  obtain ⟨hnd, hsel⟩ := hinv
  cases e with
  | canvasClick x y ts =>
      show Inv (handleCanvasClick x y ts s).1
      cases hht : hitTest s.notes (y.fdiv CELL_SIZE) (x.fdiv CELL_SIZE) with
      | some c =>
          have hn : (handleCanvasClick x y ts s).1.notes
              = s.notes.map (fun note => { note with selected := note.id == c.id }) := by
            rw [handleCanvasClick_hit x y ts s c hht]
          unfold Inv
          rw [hn]
          refine ⟨?_, ?_⟩
          · rw [map_id_of_preserving s.notes
              (fun note => { note with selected := note.id == c.id }) (fun n => rfl)]
            exact hnd
          · exact countP_selected_of_hit c hnd
      | none =>
          by_cases hd : s.isDragging
          · have : handleCanvasClick x y ts s = (s, []) := by
              simp [handleCanvasClick, hht, hd]
            rw [this]; exact ⟨hnd, hsel⟩
          · unfold Inv
            rw [handleCanvasClick_miss_notes x y ts s hht (by simpa using hd)]
            constructor
            · rw [List.map_append, map_id_of_preserving s.notes
                (fun note => { note with selected := false }) (fun n => rfl)]
              simp only [List.map_cons, List.map_nil, List.nodup_append]
              refine ⟨hnd, List.nodup_singleton _, ?_⟩
              intro a ha hmem
              rcases List.mem_singleton.mp hmem with rfl
              exact hfresh ha
            · rw [List.countP_append, List.countP_map]
              simp [mkNewNote]
  | mouseDown x y =>
      show Inv (handleMouseDown x y s)
      unfold Inv
      rw [handleMouseDown_notes]
      exact ⟨hnd, hsel⟩
  | mouseMove x y =>
      show Inv (handleMouseMove x y s)
      unfold Inv
      cases hselx : s.selectedNote with
      | none => simp only [handleMouseMove, hselx]; exact ⟨hnd, hsel⟩
      | some sel =>
          by_cases hd : s.isDragging
          · rw [handleMouseMove_notes x y s sel hselx hd]
            constructor
            · rw [map_id_of_preserving s.notes
                (fun note =>
                  if note.id == sel.id then
                    { note with
                        colIndex := x.fdiv CELL_SIZE
                        rowIndex := y.fdiv CELL_SIZE
                        note := jsIndex allNotes (y.fdiv CELL_SIZE) }
                  else note)
                (fun n => by by_cases hb : (n.id == sel.id) = true <;> simp [hb])]
              exact hnd
            · rw [List.countP_map]
              have heq : (s.notes.countP ((fun n => n.selected) ∘ fun note =>
                  if note.id == sel.id then
                    { note with
                        colIndex := x.fdiv CELL_SIZE
                        rowIndex := y.fdiv CELL_SIZE
                        note := jsIndex allNotes (y.fdiv CELL_SIZE) }
                  else note)) = s.notes.countP (fun n => n.selected) := by
                apply List.countP_congr
                intro a _
                simp only [Function.comp_apply]
                split <;> rfl
              rw [heq]; exact hsel
          · have hd' : s.isDragging = false := by simpa using hd
            simp only [handleMouseMove, hselx, hd']
            exact ⟨hnd, hsel⟩
  | mouseUp =>
      exact ⟨hnd, hsel⟩
  | playEv now =>
      show Inv (playRecorded now s).1
      unfold Inv
      rw [playRecorded_notes]
      exact ⟨hnd, hsel⟩
  | stopEv =>
      exact ⟨hnd, hsel⟩
  | pianoDown p =>
      show Inv (playNote (some p) s).1
      unfold Inv
      rw [playNote_notes]
      exact ⟨hnd, hsel⟩
  | pianoUp p =>
      show Inv (stopNote (some p) s).1
      unfold Inv
      rw [stopNote_notes]
      exact ⟨hnd, hsel⟩

theorem inv_of_reachable {s : PianoRollState} (h : Reachable s) : Inv s := by
  induction h with
  | init hs => exact ⟨by simp [initialState], by simp [initialState]⟩
  | step e hr hf ih => exact inv_applyEvent e ih hf

/-- C1: the specified invariant `colIndex == startColumn` fails on the code: a
drag-move step rewrites `colIndex` but never touches `start`.  Concretely,
create a note at cell `(0,0)`, press on it, and drag to pixel `x = 130`
(column 5): the stored note ends with `colIndex = 5` but `start = 0`. -/
theorem pr_C1_bug :
    (handleMouseMove 130 0 (handleMouseDown 0 0
        (handleCanvasClick 0 0 0 (initialState true)).1)).notes =
      [{ id := "note-0", note := some "B1", start := 0, duration := 1,
         rowIndex := 0, colIndex := 5, selected := true }] := by
  decide

/-- C2: `playRecorded` on an empty store is not a no-op: the guard only checks
`synth && !isPlaying`, so the session flips to Playing, transport calls are
issued, `Math.max` IS taken over the empty sequence (`jsMaxInt [] = none`,
i.e. `-Infinity`), and the stop callback is scheduled at that meaningless
time. -/
theorem pr_C2_bug :
    playRecorded 0 (initialState true) =
      ({ initialState true with isPlaying := true },
       [EngineCall.transportCancel, EngineCall.transportStop,
        EngineCall.transportSetPosition 0,
        EngineCall.transportSchedule none, EngineCall.transportStart]) ∧
    jsMaxInt ((initialState true).notes.map (fun n => n.start + n.duration)) = none := by
  decide

/-- C3: a click whose computed row is outside the pitch lattice is NOT a
no-op: at `y = 1500` (row 60, one past the last lattice row) on an empty
store, the handler appends a note whose pitch is `undefined` (`none`),
selects it, and fires an `attack` with the undefined pitch. -/
theorem pr_C3_bug :
    handleCanvasClick 0 1500 7 (initialState true) =
      ({ initialState true with
          notes := [{ id := "note-7", note := none, start := 0, duration := 1,
                      rowIndex := 60, colIndex := 0, selected := true }]
          selectedNote := some { id := "note-7", note := none, start := 0, duration := 1,
                                 rowIndex := 60, colIndex := 0, selected := true }
          activeNotes := [none] },
       [EngineCall.triggerAttack none]) := by
  decide

/-- C5 counterexample: after a pointer-up ends a drag, the dragged-note
reference (`selectedNote`, the variable the drag handler consults) is NOT
cleared: the controller is out of Dragging yet the reference is still set. -/
theorem pr_C5_counterexample :
    (handleMouseUp (handleMouseDown 0 0
        (handleCanvasClick 0 0 0 (initialState true)).1)).isDragging = false ∧
    (handleMouseUp (handleMouseDown 0 0
        (handleCanvasClick 0 0 0 (initialState true)).1)).selectedNote =
      some { id := "note-0", note := some "B1", start := 0, duration := 1,
             rowIndex := 0, colIndex := 0, selected := true } := by
  decide

/-- C5 (amended): pointer-up and pointer-leave run the same handler, which
unconditionally clears the `isDragging` flag — the flag alone marks the
Dragging state — and drag-moves mutate nothing unless the flag is set; the
selected-note reference itself is not cleared on exit from Dragging and
persists as the current selection. -/
theorem pr_C5 :
    (∀ s : PianoRollState,
        (handleMouseUp s).isDragging = false ∧
        (handleMouseUp s).selectedNote = s.selectedNote) ∧
    (∀ (x y : Int) (s : PianoRollState), s.isDragging = false →
        handleMouseMove x y s = s) := by
  constructor
  · intro s; exact ⟨rfl, rfl⟩
  · intro x y s h
    cases hs : s.selectedNote <;> simp [handleMouseMove, hs, h]

/-- Witness for the amended C5 at a concrete state. -/
theorem pr_C5_witness :
    (handleMouseUp sampleDragState).isDragging = false ∧
    handleMouseMove 130 0 (initialState true) = initialState true :=
  ⟨(pr_C5.1 sampleDragState).1, pr_C5.2 130 0 (initialState true) rfl⟩

/-- C6: `playRecorded` while the session is already Playing is a complete
no-op (state unchanged, no engine calls); and for two consecutive `play()`
calls from a stopped state with a synth, the first call schedules exactly one
`attackRelease` per note in the store and the second call is a no-op, so each
note is scheduled exactly once. -/
theorem pr_C6 :
    (∀ (s : PianoRollState) (now : ℚ), s.isPlaying = true →
        playRecorded now s = (s, [])) ∧
    (∀ (s : PianoRollState) (now now2 : ℚ), s.hasSynth = true → s.isPlaying = false →
        (playRecorded now s).2.countP isAttackRelease = s.notes.length ∧
        playRecorded now2 (playRecorded now s).1 = ((playRecorded now s).1, [])) := by
  constructor
  · intro s now h
    simp [playRecorded, h]
  · intro s now now2 hs hp
    have h1 : (playRecorded now s).1 = { s with isPlaying := true } := by
      simp [playRecorded, hs, hp]
    constructor
    · simp [playRecorded, hs, hp, isAttackRelease, List.countP_append, List.countP_map,
        Function.comp]
    · rw [h1]
      simp [playRecorded]

/-- Witness for C6 at concrete states. -/
theorem pr_C6_witness :
    playRecorded 0 { initialState true with isPlaying := true } =
      ({ initialState true with isPlaying := true }, []) ∧
    (playRecorded 0 sampleDragState).2.countP isAttackRelease =
      sampleDragState.notes.length :=
  ⟨pr_C6.1 { initialState true with isPlaying := true } 0 rfl,
   (pr_C6.2 sampleDragState 0 0 rfl rfl).1⟩

/-- C7: for a store holding exactly one note with pitch `"C4"`,
`start = 0` and `duration = 2`, `play()` from a stopped state issues exactly
one `attackRelease("C4", 0.5, now + 0)` (0.5 s long, starting at the session
start `now`) and schedules the stop callback at `t = 0.5` s. -/
theorem pr_C7 (s : PianoRollState) (idv : String) (r c : Int) (sel : Bool) (now : ℚ)
    (hn : s.notes = [{ id := idv, note := some "C4", start := 0, duration := 2,
                       rowIndex := r, colIndex := c, selected := sel }])
    (hs : s.hasSynth = true) (hp : s.isPlaying = false) :
    playRecorded now s =
      ({ s with isPlaying := true },
       [EngineCall.transportCancel, EngineCall.transportStop,
        EngineCall.transportSetPosition 0,
        EngineCall.triggerAttackRelease (some "C4") (1/2) now,
        EngineCall.transportSchedule (some (1/2)), EngineCall.transportStart]) := by
  simp [playRecorded, hn, hs, hp, jsMaxInt]
  norm_num

/-- Witness for C7 at a fully concrete state and `now = 0`. -/
theorem pr_C7_witness :
    playRecorded 0
        { hasSynth := true, activeNotes := [],
          notes := [{ id := "note-0", note := some "C4", start := 0, duration := 2,
                      rowIndex := 0, colIndex := 0, selected := false }],
          isPlaying := false, isDragging := false, selectedNote := none,
          numberOfColumns := 64 } =
      ({ hasSynth := true, activeNotes := [],
         notes := [{ id := "note-0", note := some "C4", start := 0, duration := 2,
                     rowIndex := 0, colIndex := 0, selected := false }],
         isPlaying := true, isDragging := false, selectedNote := none,
         numberOfColumns := 64 },
       [EngineCall.transportCancel, EngineCall.transportStop,
        EngineCall.transportSetPosition 0,
        EngineCall.triggerAttackRelease (some "C4") (1/2) 0,
        EngineCall.transportSchedule (some (1/2)), EngineCall.transportStart]) :=
  pr_C7 _ "note-0" 0 0 false 0 rfl rfl rfl

/-- C8: a drag-move step keeps the store length, preserves for every note the
`id`, `duration`, `start` and `selected` flag, leaves every note other than
the dragged one (matched by id) completely unchanged, and rewrites only the
dragged note fields `colIndex`, `rowIndex` and pitch. -/
theorem pr_C8 (s : PianoRollState) (x y : Int) (sel : Note)
    (hd : s.isDragging = true) (hsel : s.selectedNote = some sel) :
    (handleMouseMove x y s).notes.length = s.notes.length ∧
    ∀ (i : Nat) (hi : i < s.notes.length) (hi' : i < (handleMouseMove x y s).notes.length),
      ((handleMouseMove x y s).notes[i]).id = (s.notes[i]).id ∧
      ((handleMouseMove x y s).notes[i]).duration = (s.notes[i]).duration ∧
      ((handleMouseMove x y s).notes[i]).start = (s.notes[i]).start ∧
      ((handleMouseMove x y s).notes[i]).selected = (s.notes[i]).selected ∧
      (((s.notes[i]).id == sel.id) = false →
        (handleMouseMove x y s).notes[i] = s.notes[i]) ∧
      (((s.notes[i]).id == sel.id) = true →
        (handleMouseMove x y s).notes[i] =
          { s.notes[i] with
              colIndex := x.fdiv CELL_SIZE
              rowIndex := y.fdiv CELL_SIZE
              note := jsIndex allNotes (y.fdiv CELL_SIZE) }) := by
  have hnotes := handleMouseMove_notes x y s sel hsel hd
  refine ⟨by rw [hnotes]; simp, ?_⟩
  intro i hi hi'
  simp only [hnotes, List.getElem_map]
  by_cases hb : ((s.notes[i]).id == sel.id) = true
  · simp [hb]
  · rw [Bool.not_eq_true] at hb
    simp [hb]

/-- Witness for C8: drag `sampleNote` from column 3 to pixel 130 (column 5). -/
theorem pr_C8_witness :
    (handleMouseMove 130 0 sampleDragState).notes.length =
      sampleDragState.notes.length :=
  (pr_C8 sampleDragState 130 0 sampleNote rfl rfl).1

theorem hits_eq_true_iff (row col : Int) (n : Note) :
    hits row col n = true ↔
      n.rowIndex = row ∧ n.colIndex ≤ col ∧ col < n.colIndex + n.duration := by
  simp [hits, and_assoc, ge_iff_le]

/-- C9: `hitTest(row, col)` returns a note iff some note of the store matches
(`rowIndex = row` and `colIndex ≤ col < colIndex + duration`), and the
returned note is the first match in store order: it sits at an index all of
whose predecessors fail the hit predicate. -/
theorem pr_C9 :
    (∀ (notes : List Note) (row col : Int),
        (hitTest notes row col).isSome = true ↔
          ∃ n, n ∈ notes ∧ n.rowIndex = row ∧ n.colIndex ≤ col ∧
            col < n.colIndex + n.duration) ∧
    (∀ (notes : List Note) (row col : Int) (n : Note),
        hitTest notes row col = some n →
          (n.rowIndex = row ∧ n.colIndex ≤ col ∧ col < n.colIndex + n.duration) ∧
          ∃ (i : Nat) (hi : i < notes.length),
            notes[i] = n ∧
            ∀ (j : Nat) (hj : j < notes.length), j < i →
              hits row col notes[j] = false) := by
  constructor
  · intro notes row col
    rw [hitTest, List.find?_isSome]
    constructor
    · rintro ⟨n, hmem, hp⟩
      exact ⟨n, hmem, (hits_eq_true_iff row col n).mp hp⟩
    · rintro ⟨n, hmem, hprop⟩
      exact ⟨n, hmem, (hits_eq_true_iff row col n).mpr hprop⟩
  · intro notes row col n h
    rw [hitTest, List.find?_eq_some_iff_getElem] at h
    obtain ⟨hp, i, hlen, hget, hprev⟩ := h
    refine ⟨(hits_eq_true_iff row col n).mp hp, i, hlen, hget, ?_⟩
    intro j hj hji
    have hx := hprev j hji
    simpa using hx

/-- Witness for C9: two overlapping notes on row 0; at column 2 both match
and `hitTest` returns the first one in store order. -/
theorem pr_C9_witness :
    (overlapA.rowIndex = 0 ∧ overlapA.colIndex ≤ 2 ∧
      2 < overlapA.colIndex + overlapA.duration) ∧
    ∃ (i : Nat) (hi : i < ([overlapA, overlapB] : List Note).length),
      ([overlapA, overlapB] : List Note)[i] = overlapA ∧
      ∀ (j : Nat) (hj : j < ([overlapA, overlapB] : List Note).length), j < i →
        hits 0 2 ([overlapA, overlapB] : List Note)[j] = false :=
  pr_C9.2 [overlapA, overlapB] 0 2 overlapA (by decide)

/-- C10: a click that hits an existing note changes only the selection: it
emits no engine calls, keeps the column count, playing/dragging flags and
active pitches, sets the selected-note reference to the hit note, and every
note keeps its id, pitch, position and duration — only `selected` flags are
rewritten (true exactly on ids equal to the id of the hit note). -/
theorem pr_C10 (s : PianoRollState) (x y : Int) (ts : Nat) (c : Note)
    (hht : hitTest s.notes (y.fdiv CELL_SIZE) (x.fdiv CELL_SIZE) = some c) :
    (handleCanvasClick x y ts s).2 = [] ∧
    (handleCanvasClick x y ts s).1.numberOfColumns = s.numberOfColumns ∧
    (handleCanvasClick x y ts s).1.isPlaying = s.isPlaying ∧
    (handleCanvasClick x y ts s).1.isDragging = s.isDragging ∧
    (handleCanvasClick x y ts s).1.activeNotes = s.activeNotes ∧
    (handleCanvasClick x y ts s).1.hasSynth = s.hasSynth ∧
    (handleCanvasClick x y ts s).1.selectedNote = some c ∧
    (handleCanvasClick x y ts s).1.notes.length = s.notes.length ∧
    ∀ (i : Nat) (hi : i < s.notes.length)
      (hi' : i < (handleCanvasClick x y ts s).1.notes.length),
      ((handleCanvasClick x y ts s).1.notes[i]).id = (s.notes[i]).id ∧
      ((handleCanvasClick x y ts s).1.notes[i]).note = (s.notes[i]).note ∧
      ((handleCanvasClick x y ts s).1.notes[i]).start = (s.notes[i]).start ∧
      ((handleCanvasClick x y ts s).1.notes[i]).duration = (s.notes[i]).duration ∧
      ((handleCanvasClick x y ts s).1.notes[i]).rowIndex = (s.notes[i]).rowIndex ∧
      ((handleCanvasClick x y ts s).1.notes[i]).colIndex = (s.notes[i]).colIndex ∧
      ((handleCanvasClick x y ts s).1.notes[i]).selected = ((s.notes[i]).id == c.id) := by
  have h := handleCanvasClick_hit x y ts s c hht
  rw [h]
  refine ⟨rfl, rfl, rfl, rfl, rfl, rfl, rfl, by simp, ?_⟩
  intro i hi hi'
  simp [List.getElem_map]

/-- Witness for C10: click at pixel `(50, 0)` (cell `(0,2)`) on a store of
two overlapping notes — the first one is hit and selected. -/
theorem pr_C10_witness :
    (handleCanvasClick 50 0 0
        { hasSynth := true, activeNotes := [], notes := [overlapA, overlapB],
          isPlaying := false, isDragging := false, selectedNote := none,
          numberOfColumns := 64 }).2 = [] ∧
    (handleCanvasClick 50 0 0
        { hasSynth := true, activeNotes := [], notes := [overlapA, overlapB],
          isPlaying := false, isDragging := false, selectedNote := none,
          numberOfColumns := 64 }).1.selectedNote = some overlapA := by
  have h := pr_C10
    { hasSynth := true, activeNotes := [], notes := [overlapA, overlapB],
      isPlaying := false, isDragging := false, selectedNote := none,
      numberOfColumns := 64 } 50 0 0 overlapA (by decide)
  exact ⟨h.1, h.2.2.2.2.2.2.1⟩

/-- C4: in every state reachable from the initial state (under fresh ids for
each click timestamp), at most one note is selected; and immediately after
a note-creating click (miss, not dragging), exactly one note is selected,
the new note sits at the end of the store, it is selected, and any selected
note of the store is that new note. -/
theorem pr_C4 :
    (∀ s : PianoRollState, Reachable s →
        s.notes.countP (fun n => n.selected) ≤ 1) ∧
    (∀ (s : PianoRollState) (x y : Int) (ts : Nat),
        hitTest s.notes (y.fdiv CELL_SIZE) (x.fdiv CELL_SIZE) = none →
        s.isDragging = false →
        (handleCanvasClick x y ts s).1.notes.countP (fun n => n.selected) = 1 ∧
        (handleCanvasClick x y ts s).1.notes.getLast? =
          some (mkNewNote (y.fdiv CELL_SIZE) (x.fdiv CELL_SIZE) ts) ∧
        (mkNewNote (y.fdiv CELL_SIZE) (x.fdiv CELL_SIZE) ts).selected = true ∧
        ∀ n ∈ (handleCanvasClick x y ts s).1.notes, n.selected = true →
          n = mkNewNote (y.fdiv CELL_SIZE) (x.fdiv CELL_SIZE) ts) := by
  constructor
  · intro s h
    exact (inv_of_reachable h).2
  · intro s x y ts hht hd
    have hn := handleCanvasClick_miss_notes x y ts s hht hd
    refine ⟨?_, ?_, rfl, ?_⟩
    · rw [hn, List.countP_append, List.countP_map]
      simp [Function.comp, mkNewNote]
    · rw [hn]
      simp
    · intro n hmem hsel
      rw [hn] at hmem
      rcases List.mem_append.mp hmem with hmem | hmem
      · obtain ⟨m, _, rfl⟩ := List.mem_map.mp hmem
        simp at hsel
      · simpa using hmem

/-- Witness for C4: the state after one creating click on the empty initial
store is reachable and has exactly one selected note. -/
theorem pr_C4_witness :
    (handleCanvasClick 0 0 0 (initialState true)).1.notes.countP
      (fun n => n.selected) ≤ 1 ∧
    (handleCanvasClick 0 0 0 (initialState true)).1.notes.countP
      (fun n => n.selected) = 1 := by
  constructor
  · exact pr_C4.1 _ (Reachable.step (Event.canvasClick 0 0 0) (Reachable.init true)
      (by simp [freshEvent, initialState]))
  · exact (pr_C4.2 (initialState true) 0 0 0 rfl rfl).1

end PianoRoll

